import Mathlib

/-!
Verification development for the RNEBA rewards application core
(`src/lib/transactions.ts`, `src/lib/txEvents.ts`, and the subscription
pattern shared by `src/lib/transactions.ts` and `src/lib/content.ts`).

The remote data gateway (hosted relational store with row-level security)
is modelled as a list of transaction rows; each lifecycle call is a pure
function from the current table state and an environment (current time,
gateway-assigned id, gateway error outcomes, and whether row-level
security lets the write-back return the affected row) to the new table
state, the returned value, and the list of payloads pushed onto the
local event bus.
-/

namespace RNEBA

/-- Transaction status, from `export type TransactionStatus = 'pending' | 'rejected' | 'paid'`
(src/lib/transactions.ts line 4). -/
inductive TxStatus
  | pending
  | rejected
  | paid
deriving DecidableEq

/-- Bool test for the `paid` status, used to embed `.neq('status', 'paid')`. -/
def TxStatus.isPaid : TxStatus → Bool
  | .paid => true
  | _ => false

/-- A row of the `transactions` table, from the `Transaction` type
(src/lib/transactions.ts lines 6-20). Nullable columns are `Option`. -/
structure Transaction where
  id : String
  user_id : String
  offer_id : Option String
  offer_title : Option String
  offer_icon_url : Option String
  amount : Option Int
  status : TxStatus
  proof_url : Option String
  notes : Option String
  reviewed_by : Option String
  reviewed_at : Option String
  created_at : String
  updated_at : String
deriving DecidableEq

/-- The gateway's `transactions` table, as a list of rows. -/
abbrev DB := List Transaction

/-- Environment of one gateway call: the current wall-clock time
(`new Date().toISOString()`), the id the gateway assigns to an inserted
row, whether the find / write steps fail with a gateway error, and
whether row-level security lets `select('*')` on the write-back return
the affected row. -/
structure Env where
  now : String
  freshId : String
  findError : Option String := none
  writeError : Option String := none
  returnRow : Bool := true

/-- Row matches `(user_id, offer_id)`, embedding
`.eq('user_id', input.userId).eq('offer_id', input.offerId)`. -/
def pairMatch (uid oid : String) (t : Transaction) : Bool :=
  t.user_id == uid && t.offer_id == some oid

/-- Row matches the active-transaction query filter: the pair filter plus
`.neq('status', 'paid')` (src/lib/transactions.ts lines 56-58). -/
def matchesActive (uid oid : String) (t : Transaction) : Bool :=
  pairMatch uid oid t && !(t.status.isPaid)

/-- First row with maximal `created_at`, embedding
`.order('created_at', { ascending: false }).limit(1)` followed by `[0]`. -/
def latestOf : List Transaction → Option Transaction
  | [] => none
  | t :: ts => some (ts.foldl (fun best x => if best.created_at < x.created_at then x else best) t)

/-- The `existing` row of `createOrReuseActiveTransaction` step 1
(src/lib/transactions.ts lines 52-62). -/
def findLatestNonPaid (db : DB) (uid oid : String) : Option Transaction :=
  latestOf (db.filter (matchesActive uid oid))

/-- Gateway `update(...).eq('id', id)`: applies `f` to every row whose id
matches, leaving other rows untouched. -/
def updateById (db : DB) (i : String) (f : Transaction → Transaction) : DB :=
  db.map (fun t => if t.id == i then f t else t)

/-- All rows for a `(userId, offerId)` pair, used to state the
single-active-transaction invariant. -/
def pairRows (db : DB) (uid oid : String) : List Transaction :=
  db.filter (pairMatch uid oid)

/-- Input of `createOrReuseActiveTransaction` (src/lib/transactions.ts lines 45-51). -/
structure CreateInput where
  userId : String
  offerId : String
  offerTitle : Option String := none
  offerIconUrl : Option String := none
  amount : Option Int := none
deriving DecidableEq

/-- Input of `createPendingTransaction` (src/lib/transactions.ts lines 105-112). -/
structure PendingInput where
  userId : String
  offerId : Option String := none
  offerTitle : Option String := none
  offerIconUrl : Option String := none
  amount : Option Int := none
  proofUrl : Option String := none
deriving DecidableEq

/-- The `patch` object built on the reuse path
(src/lib/transactions.ts lines 67-75). -/
structure ReusePatch where
  status : TxStatus
  offer_title : Option String
  offer_icon_url : Option String
  amount : Option Int
  reviewed_at : Option String
  reviewed_by : Option String
deriving DecidableEq

/-- Builds the reuse patch: status forced back to `pending`, denormalized
fields prefer the newly supplied value over the stored one
(`input.offerTitle ?? existing.offer_title ?? null`), review fields cleared. -/
def mkReusePatch (input : CreateInput) (existing : Transaction) : ReusePatch :=
  { status := TxStatus.pending
    offer_title := input.offerTitle <|> existing.offer_title
    offer_icon_url := input.offerIconUrl <|> existing.offer_icon_url
    amount := input.amount <|> existing.amount
    reviewed_at := none
    reviewed_by := none }

/-- Client-side merge `mapRow({ ...existing, ...patch, id })` used when the
gateway returns no row on the reuse path (src/lib/transactions.ts line 86).
Does not touch `updated_at` (no DB trigger runs client-side). -/
def mergePatch (existing : Transaction) (p : ReusePatch) : Transaction :=
  { existing with
    status := p.status
    offer_title := p.offer_title
    offer_icon_url := p.offer_icon_url
    amount := p.amount
    reviewed_at := p.reviewed_at
    reviewed_by := p.reviewed_by }

/-- Gateway-side application of the reuse patch to a stored row; the DB
trigger mentioned at src/lib/transactions.ts line 72 refreshes `updated_at`. -/
def applyReusePatch (p : ReusePatch) (now : String) (t : Transaction) : Transaction :=
  { mergePatch t p with updated_at := now }

/-- Row the gateway stores for `insert(payload)` in `createPendingTransaction`
(src/lib/transactions.ts lines 113-122): the payload columns, a
gateway-assigned id, gateway timestamps, other nullable columns defaulted. -/
def insertedRow (env : Env) (input : PendingInput) : Transaction :=
  { id := env.freshId
    user_id := input.userId
    offer_id := input.offerId
    offer_title := input.offerTitle
    offer_icon_url := input.offerIconUrl
    amount := input.amount
    status := TxStatus.pending
    proof_url := input.proofUrl
    notes := none
    reviewed_by := none
    reviewed_at := none
    created_at := env.now
    updated_at := env.now }

/-- The minimal object synthesized when the insert returns no row
(src/lib/transactions.ts lines 126-141): sentinel id `unknown`,
client-side timestamps, null review fields. -/
def synthInsertRow (env : Env) (input : PendingInput) : Transaction :=
  { id := "unknown"
    user_id := input.userId
    offer_id := input.offerId
    offer_title := input.offerTitle
    offer_icon_url := input.offerIconUrl
    amount := input.amount
    status := TxStatus.pending
    proof_url := input.proofUrl
    notes := none
    reviewed_by := none
    reviewed_at := none
    created_at := env.now
    updated_at := env.now }

/-- Result of a successful creation/reuse call: the table afterwards, the
returned transaction, and the payloads pushed onto the local event bus. -/
structure CallResult where
  db : DB
  ret : Transaction
  emitted : List Transaction
deriving DecidableEq

/-- Embeds `createPendingTransaction` (src/lib/transactions.ts lines 105-148):
insert a pending row; if the gateway returns no row, synthesize the
minimal object instead of failing; emit the result on the event bus. -/
def createPendingTransaction (env : Env) (db : DB) (input : PendingInput) :
    Except String CallResult :=
  match env.writeError with
  | some e => Except.error e
  | none =>
    let db' := db ++ [insertedRow env input]
    let row? : Option Transaction := if env.returnRow then some (insertedRow env input) else none
    let tx :=
      match row? with
      | none => synthInsertRow env input
      | some row => row
    Except.ok { db := db', ret := tx, emitted := [tx] }

/-- Conversion of a `createOrReuseActiveTransaction` input into the
`createPendingTransaction` input used on the insert path
(src/lib/transactions.ts lines 96-102). -/
def toPendingInput (input : CreateInput) : PendingInput :=
  { userId := input.userId
    offerId := some input.offerId
    offerTitle := input.offerTitle
    offerIconUrl := input.offerIconUrl
    amount := input.amount
    proofUrl := none }

/-- Embeds `createOrReuseActiveTransaction` (src/lib/transactions.ts
lines 45-103): find the latest non-paid row for the pair; if found,
patch it back to pending (falling back to a client-side merge when the
write-back returns no row); otherwise insert a brand-new pending row. -/
def createOrReuseActiveTransaction (env : Env) (db : DB) (input : CreateInput) :
    Except String CallResult :=
  match env.findError with
  | some e => Except.error e
  | none =>
    match findLatestNonPaid db input.userId input.offerId with
    | some existing =>
      match env.writeError with
      | some e => Except.error e
      | none =>
        let patch := mkReusePatch input existing
        let db' := updateById db existing.id (applyReusePatch patch env.now)
        let row? : Option Transaction :=
          if env.returnRow then (db'.filter (fun t => t.id == existing.id)).head? else none
        let tx :=
          match row? with
          | none => mergePatch existing patch
          | some row => row
        Except.ok { db := db', ret := tx, emitted := [tx] }
    | none => createPendingTransaction env db (toPendingInput input)

/-- The `options` object of `updateTransactionStatus`
(src/lib/transactions.ts line 153). Each field is `Option (Option _)`:
the outer layer distinguishes an absent property (`undefined`, leave the
column untouched) from a present one whose value may be `null`. -/
structure UpdateOptions where
  notes : Option (Option String) := none
  reviewed_by : Option (Option String) := none
  reviewed_at : Option (Option String) := none
deriving DecidableEq

/-- The `patch` object of `updateTransactionStatus`: `status` always,
other columns only when present. -/
structure StatusPatch where
  status : TxStatus
  notes : Option (Option String) := none
  reviewed_by : Option (Option String) := none
  reviewed_at : Option (Option String) := none
deriving DecidableEq

/-- Builds the status patch (src/lib/transactions.ts lines 155-162).
The whole option-copying block, including the auto-stamp of
`reviewed_at` for non-pending statuses, runs only under `if (options)`. -/
def mkStatusPatch (status : TxStatus) (options : Option UpdateOptions) (now : String) :
    StatusPatch :=
  match options with
  | none => { status := status }
  | some o =>
    { status := status
      notes := o.notes
      reviewed_by := o.reviewed_by
      reviewed_at :=
        match o.reviewed_at with
        | some v => some v
        | none => if status ≠ TxStatus.pending then some (some now) else none }

/-- Gateway-side application of a status patch: present columns are set,
absent ones kept; the DB trigger refreshes `updated_at`. -/
def applyStatusPatch (p : StatusPatch) (now : String) (t : Transaction) : Transaction :=
  { t with
    status := p.status
    notes := p.notes.getD t.notes
    reviewed_by := p.reviewed_by.getD t.reviewed_by
    reviewed_at := p.reviewed_at.getD t.reviewed_at
    updated_at := now }

/-- Rows the write-back `select('*')` yields for `.eq('id', id)` after an
update: empty when row-level security suppresses the return. -/
def readBack (env : Env) (db : DB) (i : String) : List Transaction :=
  if env.returnRow then db.filter (fun t => t.id == i) else []

/-- Result of `updateTransactionStatus`: the table afterwards, the value
returned or the error raised, and the event-bus pushes performed. -/
structure UpdateResult where
  db : DB
  ret : Except String Transaction
  emitted : List Transaction

/-- Embeds `updateTransactionStatus` (src/lib/transactions.ts lines 150-168):
apply the patch by id; `.single()` on the read-back demands exactly one
returned row and raises otherwise; only a successful read-back is mapped,
emitted and returned. -/
def updateTransactionStatus (env : Env) (db : DB) (i : String) (status : TxStatus)
    (options : Option UpdateOptions) : UpdateResult :=
  match env.writeError with
  | some e => { db := db, ret := Except.error e, emitted := [] }
  | none =>
    let patch := mkStatusPatch status options env.now
    let db' := updateById db i (applyStatusPatch patch env.now)
    let res : Except String Transaction × List Transaction :=
      match readBack env db' i with
      | [row] => (Except.ok row, [row])
      | _ => (Except.error "single: expected exactly one row", [])
    { db := db', ret := res.1, emitted := res.2 }

/-! Local event bus (src/lib/txEvents.ts). Callbacks are identified by
natural numbers; the module-level `Set` of listeners is a duplicate-free
insertion-ordered list (a JS `Set` preserves insertion order and ignores
re-insertion of an element already present). A callback's behaviour when
invoked is abstracted as: a list of listener-set mutations it performs,
and whether it then throws. -/

/-- `listeners.add(cb)` (src/lib/txEvents.ts line 7): no-op when already
present, otherwise appended at the end of the insertion order. -/
def addTransactionListener (s : List Nat) (c : Nat) : List Nat :=
  if c ∈ s then s else s ++ [c]

/-- `listeners.delete(cb)` (src/lib/txEvents.ts line 8). -/
def removeTransactionListener (s : List Nat) (c : Nat) : List Nat :=
  s.erase c

/-- A mutation of the listener set performed by a callback body. -/
inductive SetOp
  | add (c : Nat)
  | remove (c : Nat)

/-- Applies one listener-set mutation. -/
def applySetOp (s : List Nat) : SetOp → List Nat
  | .add c => addTransactionListener s c
  | .remove c => removeTransactionListener s c

/-- Abstract behaviour of a callback when invoked: the listener-set
mutations it performs, then whether it throws. -/
structure CbBehavior where
  ops : List SetOp := []
  throws : Bool := false

/-- Invokes one callback: its mutations are applied to the live listener
set; the second component reports the exception it raises, if any. -/
def invokeCb (beh : Nat → CbBehavior) (c : Nat) (live : List Nat) :
    List Nat × Option Unit :=
  ((beh c).ops.foldl applySetOp live, if (beh c).throws then some () else none)

/-- The loop body of `emitTransaction` (src/lib/txEvents.ts lines 12-17):
iterates the snapshot, invoking each callback inside `try { ... } catch {}`,
so a raised exception is swallowed and iteration continues either way.
Returns the live listener set afterwards and the invocation log: the list
of `(callback, payload)` deliveries in order. -/
def emitRun {P : Type} (beh : Nat → CbBehavior) (p : P) :
    List Nat → List Nat → List Nat × List (Nat × P)
  | [], live => (live, [])
  | c :: rest, live =>
    match invokeCb beh c live with
    | (live', some _) =>
      let r := emitRun beh p rest live'
      (r.1, (c, p) :: r.2)
    | (live', none) =>
      let r := emitRun beh p rest live'
      (r.1, (c, p) :: r.2)

/-- Embeds `emitTransaction` (src/lib/txEvents.ts lines 11-18):
`Array.from(listeners)` snapshots the set once, then the loop runs over
that snapshot while mutations act on the live set. -/
def emitTransaction {P : Type} (beh : Nat → CbBehavior) (s : List Nat) (p : P) :
    List Nat × List (Nat × P) :=
  emitRun beh p s s

/-! Read-model subscription pattern, shared verbatim (up to table and
filter) by `subscribeTransactionsForUser` and `subscribeAllTransactions`
(src/lib/transactions.ts lines 170-220) and by `subscribeOffers` and
`subscribeSlides` (src/lib/content.ts). A subscription instance closes
over a mutable `cancelled` flag; every asynchronous query — the initial
load and each change-notification reload — checks `if (!cancelled)`
before invoking the callback when it resolves; the returned unsubscribe
function sets `cancelled = true` and removes the realtime channel. The
instance's lifetime is a trace of such resolution and unsubscribe
events processed by the single-threaded event loop. -/

/-- An event in the lifetime of one subscription instance: an in-flight
query resolving with its data, or the unsubscribe function being called. -/
inductive SubEvent (α : Type)
  | resolve (data : List α)
  | unsub

/-- Processes one event against the `cancelled` flag: a resolving query
delivers its data to the callback only when not cancelled
(`if (!cancelled) cb(...)`); unsubscribing sets the flag. Returns the new
flag and the callback invocations performed. -/
def subStep {α : Type} (cancelled : Bool) : SubEvent α → Bool × List (List α)
  | .resolve data => (cancelled, if cancelled then [] else [data])
  | .unsub => (true, [])

/-- Runs a subscription instance over a trace of events, collecting every
callback invocation in order. -/
def subRun {α : Type} (cancelled : Bool) : List (SubEvent α) → Bool × List (List α)
  | [] => (cancelled, [])
  | e :: es =>
    let st := subStep cancelled e
    let r := subRun st.1 es
    (r.1, st.2 ++ r.2)

/-! Call sequences for the single-active-transaction invariant. -/

/-- One `createOrReuseActiveTransaction` call of a sequence sharing a
fixed `(userId, offerId)` pair: its environment plus its per-call
optional denormalized fields. -/
structure CallArgs where
  env : Env
  offerTitle : Option String := none
  offerIconUrl : Option String := none
  amount : Option Int := none

/-- The `CreateInput` of one call of such a sequence. -/
def inputOfCall (uid oid : String) (a : CallArgs) : CreateInput :=
  { userId := uid
    offerId := oid
    offerTitle := a.offerTitle
    offerIconUrl := a.offerIconUrl
    amount := a.amount }

/-- Table state after one call (a call that raises leaves the table as the
model's error branch left it, which for an aborted find is unchanged). -/
def callDb (uid oid : String) (a : CallArgs) (db : DB) : DB :=
  match createOrReuseActiveTransaction a.env db (inputOfCall uid oid a) with
  | .ok r => r.db
  | .error _ => db

/-- Table state after a sequence of calls for one fixed pair. -/
def applyCalls (uid oid : String) (db : DB) (calls : List CallArgs) : DB :=
  calls.foldl (fun d a => callDb uid oid a d) db

/-! Helper lemmas about the gateway table model. -/

/-- A status is not-paid as a Bool exactly when it differs from `paid`. -/
theorem isPaid_eq_false_iff (s : TxStatus) : s.isPaid = false ↔ s ≠ TxStatus.paid := by
  cases s <;> simp [TxStatus.isPaid]

/-- The active-transaction filter factors through the pair filter. -/
theorem filter_active_eq (uid oid : String) (db : DB) :
    db.filter (matchesActive uid oid)
      = (pairRows db uid oid).filter (fun t => !(t.status.isPaid)) := by
  induction db with
  | nil => rfl
  | cons t ts ih =>
    simp only [pairRows, List.filter_cons] at ih ⊢
    by_cases hp : pairMatch uid oid t = true <;>
      by_cases hs : t.status.isPaid = true <;>
        simp [matchesActive, hp, hs, ih]

/-- The running maximum of the fold inside `latestOf` is always one of
the candidates. -/
theorem foldl_latest_mem (ts : List Transaction) (t : Transaction) :
    ts.foldl (fun best x => if best.created_at < x.created_at then x else best) t ∈ t :: ts := by
  induction ts generalizing t with
  | nil => simp
  | cons x xs ih =>
    have h := ih (if t.created_at < x.created_at then x else t)
    simp only [List.foldl_cons]
    by_cases hc : t.created_at < x.created_at
    · rw [if_pos hc] at h ⊢
      exact List.mem_cons_of_mem t h
    · rw [if_neg hc] at h ⊢
      rcases List.mem_cons.mp h with h1 | h1
      · rw [h1]; exact List.mem_cons_self t _
      · exact List.mem_cons_of_mem t (List.mem_cons_of_mem x h1)

/-- The row `latestOf` selects comes from the candidate list. -/
theorem latestOf_mem {l : List Transaction} {x : Transaction}
    (h : latestOf l = some x) : x ∈ l := by
  cases l with
  | nil => simp [latestOf] at h
  | cons t ts =>
    simp only [latestOf, Option.some.injEq] at h
    rw [← h]
    exact foldl_latest_mem ts t

/-- The row found by the reuse query is a stored row matching the
active-transaction filter. -/
theorem findLatestNonPaid_mem {db : DB} {uid oid : String} {ex : Transaction}
    (h : findLatestNonPaid db uid oid = some ex) :
    ex ∈ db ∧ matchesActive uid oid ex = true := by
  have h1 : ex ∈ db.filter (matchesActive uid oid) := latestOf_mem h
  exact List.mem_filter.mp h1

/-- With no row at all for the pair, the reuse query finds nothing. -/
theorem findLatest_of_pairRows_nil {db : DB} {uid oid : String}
    (h : pairRows db uid oid = []) : findLatestNonPaid db uid oid = none := by
  rw [findLatestNonPaid, filter_active_eq, h]
  rfl

/-- With exactly one row for the pair and that row not paid, the reuse
query finds that row. -/
theorem findLatest_of_pairRows_single {db : DB} {uid oid : String} {r : Transaction}
    (h : pairRows db uid oid = [r]) (hr : r.status.isPaid = false) :
    findLatestNonPaid db uid oid = some r := by
  rw [findLatestNonPaid, filter_active_eq, h]
  simp [List.filter_cons, hr, latestOf]

/-- With exactly one row for the pair and that row paid, the reuse query
finds nothing. -/
theorem findLatest_of_pairRows_paid {db : DB} {uid oid : String} {r : Transaction}
    (h : pairRows db uid oid = [r]) (hr : r.status = TxStatus.paid) :
    findLatestNonPaid db uid oid = none := by
  rw [findLatestNonPaid, filter_active_eq, h]
  simp [List.filter_cons, hr, TxStatus.isPaid, latestOf]

/-- Filtering after an update-by-id is filtering first and mapping the
update over the kept rows, provided the update is invisible to the
filter predicate. -/
theorem filter_updateById (db : DB) (i : String) (f : Transaction → Transaction)
    (p : Transaction → Bool) (hf : ∀ t, p (f t) = p t) :
    (updateById db i f).filter p
      = (db.filter p).map (fun t => if t.id == i then f t else t) := by
  induction db with
  | nil => rfl
  | cons t ts ih =>
    have hp : p (if t.id == i then f t else t) = p t := by
      by_cases ht : (t.id == i) = true
      · rw [if_pos ht, hf]
      · rw [if_neg ht]
    show ((if t.id == i then f t else t) :: updateById ts i f).filter p = _
    rw [List.filter_cons, hp, List.filter_cons]
    by_cases hpt : p t = true
    · rw [if_pos hpt, if_pos hpt, List.map_cons, ih]
    · rw [if_neg hpt, if_neg hpt, ih]

/-- Reading back by id after an id-preserving update-by-id yields the
updated versions of exactly the rows the id matched before. -/
theorem readBack_updateById (env : Env) (db : DB) (i : String)
    (f : Transaction → Transaction) (hf : ∀ t, (f t).id = t.id)
    (hrr : env.returnRow = true) :
    readBack env (updateById db i f) i = (db.filter (fun t => t.id == i)).map f := by
  rw [readBack, if_pos hrr, filter_updateById db i f _ (fun t => by rw [hf])]
  apply List.map_congr_left
  intro t ht
  rw [if_pos (List.mem_filter.mp ht).2]

/-- The gateway-side reuse patch does not touch the row id. -/
theorem applyReusePatch_id (p : ReusePatch) (now : String) (t : Transaction) :
    (applyReusePatch p now t).id = t.id := rfl

/-- The gateway-side status patch does not touch the row id. -/
theorem applyStatusPatch_id (p : StatusPatch) (now : String) (t : Transaction) :
    (applyStatusPatch p now t).id = t.id := rfl

/-- The gateway-side reuse patch does not touch the pair columns. -/
theorem pairMatch_applyReusePatch (uid oid : String) (p : ReusePatch) (now : String)
    (t : Transaction) :
    pairMatch uid oid (applyReusePatch p now t) = pairMatch uid oid t := rfl

/-- Pair rows of an update-by-id: the update maps over the pair's rows
when it does not touch the pair columns. -/
theorem pairRows_updateById (db : DB) (uid oid i : String)
    (f : Transaction → Transaction)
    (hf : ∀ t, pairMatch uid oid (f t) = pairMatch uid oid t) :
    pairRows (updateById db i f) uid oid
      = (pairRows db uid oid).map (fun t => if t.id == i then f t else t) :=
  filter_updateById db i f (pairMatch uid oid) hf

/-! Helper lemmas about the event bus and the subscription pattern. -/

/-- The invocation log of the emit loop is exactly the snapshot, paired
with the payload, whatever the live set is and whatever the callbacks do. -/
theorem emitRun_log {P : Type} (beh : Nat → CbBehavior) (p : P) (snap : List Nat) :
    ∀ live : List Nat, (emitRun beh p snap live).2 = snap.map (fun c => (c, p)) := by
  induction snap with
  | nil => intro live; rfl
  | cons c rest ih =>
    intro live
    rcases h : invokeCb beh c live with ⟨live', exn⟩
    cases exn with
    | none => simp [emitRun, h, ih]
    | some u => simp [emitRun, h, ih]

/-- A cancelled subscription instance stays cancelled and never invokes
the callback again. -/
theorem subRun_cancelled {α : Type} (es : List (SubEvent α)) :
    subRun (α := α) true es = (true, []) := by
  induction es with
  | nil => rfl
  | cons e es ih =>
    cases e with
    | resolve data => simp [subRun, subStep, ih]
    | unsub => simp [subRun, subStep, ih]

/-- Splitting a subscription trace splits its delivery log. -/
theorem subRun_append {α : Type} (l1 l2 : List (SubEvent α)) (b : Bool) :
    subRun b (l1 ++ l2)
      = ((subRun (subRun b l1).1 l2).1,
         (subRun b l1).2 ++ (subRun (subRun b l1).1 l2).2) := by
  induction l1 generalizing b with
  | nil => simp [subRun]
  | cons e es ih => simp [subRun, ih]

/-- C5: publishing on the local event bus synchronously invokes every
currently registered callback with the payload, in registration order
(the log equals the registration-ordered listener list paired with the
payload), regardless of which callbacks throw — so an exception in one
callback never prevents delivery to the remaining ones. In particular,
with three listeners of which the second throws, all three — including
the first and the third — still receive the published payload. -/
theorem emitTransaction_delivers_all_in_order {P : Type} (beh : Nat → CbBehavior)
    (s : List Nat) (p : P) :
    (emitTransaction beh s p).2 = s.map (fun c => (c, p)) ∧
    (emitTransaction (fun c => { throws := c == 20 }) [10, 20, 30] p).2
      = [(10, p), (20, p), (30, p)] := by
  constructor
  · exact emitRun_log beh p s s
  · rfl

/-- C6: once the unsubscribe function of a subscription instance has run,
the subscriber callback is never invoked again — the delivery log of any
trace extending beyond the unsubscribe event equals the log of the trace
up to it, so an in-flight query resolving after closure is discarded. -/
theorem subscription_discard_after_close {α : Type}
    (pre post : List (SubEvent α)) :
    (subRun false (pre ++ SubEvent.unsub :: post)).2 = (subRun false pre).2 := by
  rw [subRun_append]
  have h1 : subRun (α := α) (subRun (α := α) false pre).1 (SubEvent.unsub :: post)
      = (true, []) := by
    simp [subRun, subStep, subRun_cancelled]
  rw [h1]
  simp

/-- C3: when a non-paid transaction exists for the pair (the reuse query
finds a row), `createOrReuseActiveTransaction` succeeds and returns a row
with status `pending`, `reviewed_at` and `reviewed_by` cleared to null,
and each denormalized field (`offer_title`, `offer_icon_url`, `amount`)
equal to the newly supplied value when one is given and otherwise to the
stored value of the existing row. -/
theorem reuse_resets_review_fields
    (env : Env) (db : DB) (input : CreateInput) (ex : Transaction)
    (hf : env.findError = none) (hw : env.writeError = none)
    (hfind : findLatestNonPaid db input.userId input.offerId = some ex) :
    ∃ res, createOrReuseActiveTransaction env db input = Except.ok res
      ∧ res.ret.status = TxStatus.pending
      ∧ res.ret.reviewed_at = none
      ∧ res.ret.reviewed_by = none
      ∧ res.ret.offer_title = (input.offerTitle <|> ex.offer_title)
      ∧ res.ret.offer_icon_url = (input.offerIconUrl <|> ex.offer_icon_url)
      ∧ res.ret.amount = (input.amount <|> ex.amount) := by
  have hmem : ex ∈ db := (findLatestNonPaid_mem hfind).1
  by_cases hrr : env.returnRow = true
  · obtain ⟨y, hy⟩ : ∃ y, (db.filter (fun t => t.id == ex.id)).head? = some y := by
      cases hfl : db.filter (fun t => t.id == ex.id) with
      | nil =>
        exfalso
        have hxm : ex ∈ db.filter (fun t => t.id == ex.id) :=
          List.mem_filter.mpr ⟨hmem, by simp⟩
        rw [hfl] at hxm
        cases hxm
      | cons y ys => exact ⟨y, rfl⟩
    have hhead : ((updateById db ex.id (applyReusePatch (mkReusePatch input ex) env.now)).filter
          (fun t => t.id == ex.id)).head?
        = some (applyReusePatch (mkReusePatch input ex) env.now y) := by
      rw [filter_updateById db ex.id (applyReusePatch (mkReusePatch input ex) env.now)
        (fun t => t.id == ex.id) (fun t => rfl)]
      have hmap : (db.filter (fun t => t.id == ex.id)).map
            (fun t => if t.id == ex.id then applyReusePatch (mkReusePatch input ex) env.now t else t)
          = (db.filter (fun t => t.id == ex.id)).map
              (applyReusePatch (mkReusePatch input ex) env.now) := by
        apply List.map_congr_left
        intro t ht
        rw [if_pos (List.mem_filter.mp ht).2]
      rw [hmap, List.head?_map, hy]
      rfl
    refine ⟨{ db := updateById db ex.id (applyReusePatch (mkReusePatch input ex) env.now),
              ret := applyReusePatch (mkReusePatch input ex) env.now y,
              emitted := [applyReusePatch (mkReusePatch input ex) env.now y] },
            ?_, rfl, rfl, rfl, rfl, rfl, rfl⟩
    simp only [createOrReuseActiveTransaction, hf, hfind, hw, hrr, if_true]
    rw [hhead]
  · rw [Bool.not_eq_true] at hrr
    refine ⟨{ db := updateById db ex.id (applyReusePatch (mkReusePatch input ex) env.now),
              ret := mergePatch ex (mkReusePatch input ex),
              emitted := [mergePatch ex (mkReusePatch input ex)] },
            ?_, rfl, rfl, rfl, rfl, rfl, rfl⟩
    simp only [createOrReuseActiveTransaction, hf, hfind, hw, hrr, if_false]
    rfl

/-- C3 witness row: a rejected earlier attempt stored for `(u1, o1)`. -/
def txRej : Transaction :=
  { id := "t9", user_id := "u1", offer_id := some "o1", offer_title := some "Old",
    offer_icon_url := none, amount := some 5, status := TxStatus.rejected,
    proof_url := none, notes := some "bad proof", reviewed_by := some "a1",
    reviewed_at := some "2026-01-02T00:00:00Z", created_at := "2026-01-01T00:00:00Z",
    updated_at := "2026-01-02T00:00:00Z" }

/-- C3 witness environment and input. -/
def envW : Env := { now := "2026-03-01T00:00:00Z", freshId := "fresh-1" }

/-- C3 witness input: re-initiating offer `o1` with a new title and no
new icon or amount. -/
def inputW : CreateInput :=
  { userId := "u1", offerId := "o1", offerTitle := some "New title" }

/-- C3 witness: the theorem instantiated on a concrete rejected row. -/
theorem reuse_resets_review_fields_witness :
    ∃ res, createOrReuseActiveTransaction envW [txRej] inputW = Except.ok res
      ∧ res.ret.status = TxStatus.pending
      ∧ res.ret.reviewed_at = none
      ∧ res.ret.reviewed_by = none
      ∧ res.ret.offer_title = (inputW.offerTitle <|> txRej.offer_title)
      ∧ res.ret.offer_icon_url = (inputW.offerIconUrl <|> txRej.offer_icon_url)
      ∧ res.ret.amount = (inputW.amount <|> txRej.amount) :=
  reuse_resets_review_fields envW [txRej] inputW txRej rfl rfl (by decide)

/-- C4: when the only stored transaction for the pair is `paid`,
`createOrReuseActiveTransaction` succeeds by inserting a brand-new
pending row: the table afterwards is the old table with one row appended
(so the paid row persists unchanged), the pair's rows are exactly the old
paid row followed by the new pending row, and — the gateway assigning a
fresh id — the new row's id differs from the paid row's. -/
theorem paid_is_terminal_for_reuse
    (env : Env) (db : DB) (input : CreateInput) (r : Transaction)
    (hf : env.findError = none) (hw : env.writeError = none)
    (h1 : pairRows db input.userId input.offerId = [r])
    (hpaid : r.status = TxStatus.paid)
    (hfresh : ∀ t ∈ db, t.id ≠ env.freshId) :
    ∃ res, createOrReuseActiveTransaction env db input = Except.ok res
      ∧ res.db = db ++ [insertedRow env (toPendingInput input)]
      ∧ pairRows res.db input.userId input.offerId
          = [r, insertedRow env (toPendingInput input)]
      ∧ (insertedRow env (toPendingInput input)).status = TxStatus.pending
      ∧ (insertedRow env (toPendingInput input)).id ≠ r.id
      ∧ r ∈ res.db := by
  have hfind : findLatestNonPaid db input.userId input.offerId = none :=
    findLatest_of_pairRows_paid h1 hpaid
  have hrmem : r ∈ db := by
    have hrf : r ∈ pairRows db input.userId input.offerId := by
      rw [h1]; exact List.mem_cons_self r []
    exact (List.mem_filter.mp hrf).1
  have hpairNew : pairMatch input.userId input.offerId (insertedRow env (toPendingInput input))
      = true := by
    simp [pairMatch, insertedRow, toPendingInput]
  refine ⟨{ db := db ++ [insertedRow env (toPendingInput input)],
            ret := match (if env.returnRow then some (insertedRow env (toPendingInput input))
                          else none) with
                   | none => synthInsertRow env (toPendingInput input)
                   | some row => row,
            emitted := [match (if env.returnRow then some (insertedRow env (toPendingInput input))
                               else none) with
                        | none => synthInsertRow env (toPendingInput input)
                        | some row => row] },
          ?_, rfl, ?_, rfl, ?_, ?_⟩
  · simp only [createOrReuseActiveTransaction, hf, hfind, createPendingTransaction, hw]
  · show pairRows (db ++ [insertedRow env (toPendingInput input)]) input.userId input.offerId = _
    rw [pairRows, List.filter_append]
    rw [pairRows] at h1
    rw [h1]
    simp [List.filter_cons, hpairNew]
  · show (insertedRow env (toPendingInput input)).id ≠ r.id
    exact fun h => hfresh r hrmem h.symm
  · exact List.mem_append_left _ hrmem

/-- C4 witness row: a paid transaction stored for `(u2, o2)`. -/
def txPaid : Transaction :=
  { id := "t1", user_id := "u2", offer_id := some "o2", offer_title := some "Offer 2",
    offer_icon_url := none, amount := some 7, status := TxStatus.paid,
    proof_url := none, notes := none, reviewed_by := some "a1",
    reviewed_at := some "2026-01-05T00:00:00Z", created_at := "2026-01-03T00:00:00Z",
    updated_at := "2026-01-05T00:00:00Z" }

/-- C4 witness environment: a fresh gateway id distinct from `t1`. -/
def envW2 : Env := { now := "2026-03-02T00:00:00Z", freshId := "t2" }

/-- C4 witness input: user `u2` re-initiates offer `o2`. -/
def inputW2 : CreateInput := { userId := "u2", offerId := "o2", amount := some 7 }

/-- C4 witness: the theorem instantiated on a concrete paid row. -/
theorem paid_is_terminal_for_reuse_witness :
    ∃ res, createOrReuseActiveTransaction envW2 [txPaid] inputW2 = Except.ok res
      ∧ res.db = [txPaid] ++ [insertedRow envW2 (toPendingInput inputW2)]
      ∧ pairRows res.db inputW2.userId inputW2.offerId
          = [txPaid, insertedRow envW2 (toPendingInput inputW2)]
      ∧ (insertedRow envW2 (toPendingInput inputW2)).status = TxStatus.pending
      ∧ (insertedRow envW2 (toPendingInput inputW2)).id ≠ txPaid.id
      ∧ txPaid ∈ res.db :=
  paid_is_terminal_for_reuse envW2 [txPaid] inputW2 txPaid rfl rfl (by decide) rfl
    (by decide)

/-- C7: when the gateway write succeeds but row-level security suppresses
the returned row, neither `createOrReuseActiveTransaction` nor
`createPendingTransaction` fails: the reuse path returns the patch merged
client-side onto the previously fetched row, the insert paths return the
object synthesized from the input fields, and in every case the
synthesized transaction is still pushed onto the local event bus. -/
theorem degraded_write_synthesizes
    (env : Env) (db : DB) (input : CreateInput) (pinput : PendingInput)
    (hf : env.findError = none) (hw : env.writeError = none)
    (hrr : env.returnRow = false) :
    (∀ ex, findLatestNonPaid db input.userId input.offerId = some ex →
      ∃ res, createOrReuseActiveTransaction env db input = Except.ok res
        ∧ res.ret = mergePatch ex (mkReusePatch input ex)
        ∧ res.emitted = [res.ret]) ∧
    (findLatestNonPaid db input.userId input.offerId = none →
      ∃ res, createOrReuseActiveTransaction env db input = Except.ok res
        ∧ res.ret = synthInsertRow env (toPendingInput input)
        ∧ res.emitted = [res.ret]) ∧
    (∃ res, createPendingTransaction env db pinput = Except.ok res
      ∧ res.ret = synthInsertRow env pinput
      ∧ res.emitted = [res.ret]) := by
  refine ⟨?_, ?_, ?_⟩
  · intro ex hfind
    refine ⟨{ db := updateById db ex.id (applyReusePatch (mkReusePatch input ex) env.now),
              ret := mergePatch ex (mkReusePatch input ex),
              emitted := [mergePatch ex (mkReusePatch input ex)] }, ?_, rfl, rfl⟩
    simp only [createOrReuseActiveTransaction, hf, hfind, hw, hrr, if_false]
    rfl
  · intro hfind
    refine ⟨{ db := db ++ [insertedRow env (toPendingInput input)],
              ret := synthInsertRow env (toPendingInput input),
              emitted := [synthInsertRow env (toPendingInput input)] }, ?_, rfl, rfl⟩
    simp only [createOrReuseActiveTransaction, hf, hfind, createPendingTransaction, hw, hrr,
      if_false]
    rfl
  · refine ⟨{ db := db ++ [insertedRow env pinput],
              ret := synthInsertRow env pinput,
              emitted := [synthInsertRow env pinput] }, ?_, rfl, rfl⟩
    simp only [createPendingTransaction, hw, hrr, if_false]
    rfl

/-- C7 witness environment: no gateway error, suppressed write-back. -/
def envD : Env := { now := "2026-03-03T00:00:00Z", freshId := "fresh-7", returnRow := false }

/-- C7 witness insert input. -/
def pinD : PendingInput := { userId := "u1", offerId := some "o3", amount := some 3 }

/-- C7 witness: the theorem instantiated on a concrete rejected row (for
the reuse conjunct) and a concrete insert input (for the insert conjunct). -/
theorem degraded_write_synthesizes_witness :
    (∃ res, createOrReuseActiveTransaction envD [txRej] inputW = Except.ok res
      ∧ res.ret = mergePatch txRej (mkReusePatch inputW txRej)
      ∧ res.emitted = [res.ret]) ∧
    (∃ res, createPendingTransaction envD [txRej] pinD = Except.ok res
      ∧ res.ret = synthInsertRow envD pinD
      ∧ res.emitted = [res.ret]) := by
  have h := degraded_write_synthesizes envD [txRej] inputW pinD rfl rfl rfl
  exact ⟨h.1 txRej (by decide), h.2.2⟩

/-- C8: whenever the write-back read of `updateTransactionStatus` does
not yield exactly one updated row, the call raises (its result is an
error, never a synthesized fallback row) and nothing is pushed onto the
local event bus. -/
theorem updateStatus_singleRow_error
    (env : Env) (db : DB) (i : String) (status : TxStatus)
    (options : Option UpdateOptions)
    (hw : env.writeError = none)
    (hlen : (readBack env (updateTransactionStatus env db i status options).db i).length ≠ 1) :
    (∃ e, (updateTransactionStatus env db i status options).ret = Except.error e)
      ∧ (updateTransactionStatus env db i status options).emitted = [] := by
  have hdb : (updateTransactionStatus env db i status options).db
      = updateById db i (applyStatusPatch (mkStatusPatch status options env.now) env.now) := by
    simp only [updateTransactionStatus, hw]
  rw [hdb] at hlen
  cases hrb : readBack env
      (updateById db i (applyStatusPatch (mkStatusPatch status options env.now) env.now)) i with
  | nil =>
    constructor
    · exact ⟨_, by simp only [updateTransactionStatus, hw, hrb]; rfl⟩
    · simp only [updateTransactionStatus, hw, hrb]
  | cons x xs =>
    cases xs with
    | nil =>
      exfalso
      apply hlen
      rw [hrb]
      rfl
    | cons y ys =>
      constructor
      · exact ⟨_, by simp only [updateTransactionStatus, hw, hrb]; rfl⟩
      · simp only [updateTransactionStatus, hw, hrb]

/-- C8 witness environment. -/
def envC8 : Env := { now := "2026-03-04T00:00:00Z", freshId := "fresh-8" }

/-- C8 witness: on an empty table the read-back yields no row, so the
status update raises and emits nothing. -/
theorem updateStatus_singleRow_error_witness :
    (∃ e, (updateTransactionStatus envC8 [] "missing" TxStatus.paid none).ret = Except.error e)
      ∧ (updateTransactionStatus envC8 [] "missing" TxStatus.paid none).emitted = [] :=
  updateStatus_singleRow_error envC8 [] "missing" TxStatus.paid none rfl (by decide)

/-- C10: on the degraded insert path the synthesized transaction carries
the literal sentinel id `unknown` (not a gateway-assigned id), has
`created_at` and `updated_at` set to the current time and
`notes`/`reviewed_by`/`reviewed_at` null; and — since stored rows never
carry the sentinel id — a later `updateTransactionStatus` aimed at this
id finds no row to read back and raises. -/
theorem degraded_insert_sentinel_id
    (env : Env) (db : DB) (input : PendingInput)
    (hw : env.writeError = none) (hrr : env.returnRow = false) :
    ∃ res, createPendingTransaction env db input = Except.ok res
      ∧ res.ret.id = "unknown"
      ∧ res.ret.created_at = env.now
      ∧ res.ret.updated_at = env.now
      ∧ res.ret.notes = none
      ∧ res.ret.reviewed_by = none
      ∧ res.ret.reviewed_at = none
      ∧ ((∀ t ∈ db, t.id ≠ "unknown") → env.freshId ≠ "unknown" →
          ∀ (env2 : Env) (status : TxStatus) (options : Option UpdateOptions),
            env2.writeError = none →
            ∃ e, (updateTransactionStatus env2 res.db "unknown" status options).ret
              = Except.error e) := by
  refine ⟨{ db := db ++ [insertedRow env input],
            ret := synthInsertRow env input,
            emitted := [synthInsertRow env input] },
          ?_, rfl, rfl, rfl, rfl, rfl, rfl, ?_⟩
  · simp only [createPendingTransaction, hw, hrr, if_false]
    rfl
  · intro hdb hfresh env2 status options hw2
    have hfil : (db ++ [insertedRow env input]).filter (fun t => t.id == "unknown") = [] := by
      rw [List.filter_eq_nil_iff]
      intro t ht
      rcases List.mem_append.mp ht with h | h
      · simp [hdb t h]
      · rw [List.mem_singleton] at h
        rw [h]
        simp [insertedRow, hfresh]
    have hrb2 : readBack env2
        (updateById (db ++ [insertedRow env input]) "unknown"
          (applyStatusPatch (mkStatusPatch status options env2.now) env2.now)) "unknown" = [] := by
      rw [readBack]
      by_cases h2 : env2.returnRow = true
      · rw [if_pos h2, filter_updateById (db ++ [insertedRow env input]) "unknown"
          (applyStatusPatch (mkStatusPatch status options env2.now) env2.now)
          (fun t => t.id == "unknown") (fun t => rfl), hfil]
        rfl
      · rw [if_neg h2]
    exact ⟨_, by simp only [updateTransactionStatus, hw2, hrb2]; rfl⟩

/-- C10 witness environment: suppressed write-back, gateway id `t7`. -/
def envD2 : Env := { now := "2026-03-05T00:00:00Z", freshId := "t7", returnRow := false }

/-- C10 witness insert input. -/
def pinD2 : PendingInput := { userId := "u5", offerId := some "o5" }

/-- C10 witness: the theorem instantiated on an empty table; the call
succeeds, the synthesized row carries the sentinel id with null review
fields, and a follow-up status update aimed at `unknown` raises. -/
theorem degraded_insert_sentinel_id_witness :
    ∃ res, createPendingTransaction envD2 [] pinD2 = Except.ok res
      ∧ res.ret.id = "unknown"
      ∧ res.ret.reviewed_at = none
      ∧ ∃ e, (updateTransactionStatus envC8 res.db "unknown" TxStatus.paid none).ret
          = Except.error e := by
  obtain ⟨res, h1, h2, _, _, _, _, h7, h8⟩ :=
    degraded_insert_sentinel_id envD2 [] pinD2 rfl rfl
  exact ⟨res, h1, h2, h7,
    h8 (by intro t ht; cases ht) (by decide) envC8 TxStatus.paid none rfl⟩

/-- C2 counterexample row: a pending transaction with no review data. -/
def txC2 : Transaction :=
  { id := "t1", user_id := "u1", offer_id := some "o1", offer_title := some "Offer 1",
    offer_icon_url := none, amount := some 4, status := TxStatus.pending,
    proof_url := none, notes := none, reviewed_by := none, reviewed_at := none,
    created_at := "2026-01-01T00:00:00Z", updated_at := "2026-01-01T00:00:00Z" }

/-- C2 counterexample environment. -/
def envC2 : Env := { now := "2026-02-02T00:00:00Z", freshId := "fresh-2" }

/-- C2 counterexample: contrary to the claim, calling
`updateTransactionStatus(id, rejected)` with no options argument does not
stamp `reviewed_at`: on a table holding exactly `txC2` the call succeeds
and the returned updated row still has `reviewed_at = none`, which is not
the current time. The option-copying block, auto-stamp included, runs
only under `if (options)` (src/lib/transactions.ts lines 156-162). -/
theorem updateStatus_noOptions_no_autostamp :
    (updateTransactionStatus envC2 [txC2] "t1" TxStatus.rejected none).ret
      = Except.ok { txC2 with status := TxStatus.rejected, updated_at := envC2.now }
    ∧ ({ txC2 with status := TxStatus.rejected, updated_at := envC2.now }).reviewed_at = none
    ∧ some envC2.now ≠ (none : Option String) := by
  refine ⟨rfl, rfl, by simp⟩

/-- C2 amended: the auto-stamp policy holds only when an options object
is supplied. If an options object is passed without `reviewed_at`, a
non-pending status stamps `reviewed_at` with the current time while
status `pending` leaves it unchanged; if no options argument is passed
at all, `reviewed_at` is left unchanged for every status, including
`rejected`. Stated on the row the call returns when the table holds
exactly one row with the targeted id. -/
theorem updateStatus_autostamp_amended
    (env : Env) (db : DB) (i : String) (status : TxStatus)
    (oOpt : Option UpdateOptions) (t : Transaction)
    (hw : env.writeError = none) (hrr : env.returnRow = true)
    (hdb : db.filter (fun x => x.id == i) = [t])
    (hno : ∀ o, oOpt = some o → o.reviewed_at = none) :
    ∃ row, (updateTransactionStatus env db i status oOpt).ret = Except.ok row
      ∧ row.reviewed_at
          = (match oOpt with
             | some _ => if status = TxStatus.pending then t.reviewed_at else some env.now
             | none => t.reviewed_at) := by
  have hrb : readBack env
      (updateById db i (applyStatusPatch (mkStatusPatch status oOpt env.now) env.now)) i
      = [applyStatusPatch (mkStatusPatch status oOpt env.now) env.now t] := by
    rw [readBack_updateById env db i
      (applyStatusPatch (mkStatusPatch status oOpt env.now) env.now) (fun x => rfl) hrr, hdb]
    rfl
  refine ⟨applyStatusPatch (mkStatusPatch status oOpt env.now) env.now t, ?_, ?_⟩
  · simp only [updateTransactionStatus, hw, hrb]
  · cases oOpt with
    | none => rfl
    | some o =>
      have ho : o.reviewed_at = none := hno o rfl
      by_cases hs : status = TxStatus.pending
      · simp [applyStatusPatch, mkStatusPatch, ho, hs]
      · simp [applyStatusPatch, mkStatusPatch, ho, hs]

/-- C2 witness: with an options object carrying only `reviewed_by`, a
`rejected` update stamps `reviewed_at` with the current time; and the
same call shape with status `pending` leaves `reviewed_at` untouched. -/
theorem updateStatus_autostamp_amended_witness :
    (∃ row, (updateTransactionStatus envC2 [txC2] "t1" TxStatus.rejected
        (some { reviewed_by := some (some "a1") })).ret = Except.ok row
      ∧ row.reviewed_at = some envC2.now) ∧
    (∃ row, (updateTransactionStatus envC2 [txC2] "t1" TxStatus.pending none).ret
        = Except.ok row
      ∧ row.reviewed_at = txC2.reviewed_at) := by
  constructor
  · obtain ⟨row, h1, h2⟩ := updateStatus_autostamp_amended envC2 [txC2] "t1"
      TxStatus.rejected (some { reviewed_by := some (some "a1") }) txC2 rfl rfl
      (by decide) (fun o ho => by cases ho; rfl)
    refine ⟨row, h1, ?_⟩
    rw [h2]
    rfl
  · obtain ⟨row, h1, h2⟩ := updateStatus_autostamp_amended envC2 [txC2] "t1"
      TxStatus.pending none txC2 rfl rfl (by decide) (fun o ho => by cases ho)
    exact ⟨row, h1, h2⟩

/-- Re-adding a callback makes it a member of the listener set. -/
theorem mem_addTransactionListener_self (s : List Nat) (c : Nat) :
    c ∈ addTransactionListener s c := by
  by_cases h : c ∈ s <;> simp [addTransactionListener, h]

/-- Registering a callback keeps the listener set duplicate-free. -/
theorem addTransactionListener_nodup {s : List Nat} (c : Nat) (h : s.Nodup) :
    (addTransactionListener s c).Nodup := by
  by_cases hc : c ∈ s
  · simpa [addTransactionListener, hc] using h
  · simp [addTransactionListener, hc, List.nodup_append, h]

/-- C9: publishing iterates a snapshot of the listener set taken at the
start of the publish — whatever registrations or removals the callbacks
perform, the delivery log equals the snapshot paired with the payload,
so a callback not yet registered at publish start never receives the
current payload and a callback registered at publish start always does,
even if an earlier callback unregisters it; and because registration
goes through a set, registering the same callback twice leaves the set
unchanged and such a callback is invoked exactly once per publish. -/
theorem emitTransaction_snapshot_and_dedup {P : Type} (beh : Nat → CbBehavior)
    (s : List Nat) (c : Nat) (p : P) (hnd : s.Nodup) :
    (∀ x, x ∉ s → (x, p) ∉ (emitTransaction beh s p).2) ∧
    (∀ x, x ∈ s → (x, p) ∈ (emitTransaction beh s p).2) ∧
    addTransactionListener (addTransactionListener s c) c = addTransactionListener s c ∧
    ((emitTransaction beh (addTransactionListener s c) p).2.map Prod.fst).count c = 1 := by
  have hlog : ∀ (l : List Nat), (emitTransaction beh l p).2 = l.map (fun x => (x, p)) :=
    fun l => emitRun_log beh p l l
  refine ⟨?_, ?_, ?_, ?_⟩
  · intro x hx
    rw [hlog]
    simp only [List.mem_map]
    rintro ⟨a, ha, hax⟩
    have hax1 : a = x := congrArg Prod.fst hax
    exact hx (hax1 ▸ ha)
  · intro x hx
    rw [hlog]
    exact List.mem_map.mpr ⟨x, hx, rfl⟩
  · have hm : c ∈ addTransactionListener s c := mem_addTransactionListener_self s c
    have hu : addTransactionListener (addTransactionListener s c) c
        = if c ∈ addTransactionListener s c then addTransactionListener s c
          else addTransactionListener s c ++ [c] := rfl
    rw [hu, if_pos hm]
  · rw [hlog]
    have hmapfst : ((addTransactionListener s c).map (fun x => (x, p))).map Prod.fst
        = addTransactionListener s c := by
      rw [List.map_map]
      exact List.map_id'' (fun x => rfl) _
    rw [hmapfst]
    exact List.count_eq_one_of_mem (addTransactionListener_nodup c hnd)
      (mem_addTransactionListener_self s c)

/-- C9 witness: a concrete instance on the snapshot `[1, 2]` with payload
`99`, registering callback `2` twice. -/
theorem emitTransaction_snapshot_and_dedup_witness :
    (5, 99) ∉ (emitTransaction (fun _ => {}) [1, 2] 99).2 ∧
    (2, 99) ∈ (emitTransaction (fun _ => {}) [1, 2] 99).2 ∧
    addTransactionListener (addTransactionListener [1, 2] 2) 2
      = addTransactionListener [1, 2] 2 ∧
    ((emitTransaction (fun _ => {}) (addTransactionListener [1, 2] 2) 99).2.map
        Prod.fst).count 2 = 1 := by
  have h := emitTransaction_snapshot_and_dedup (fun _ => {}) [1, 2] 2 99 (by decide)
  exact ⟨h.1 5 (by decide), h.2.1 2 (by decide), h.2.2.1, h.2.2.2⟩

/-- With no row for the pair, a call takes the insert path: the table
gains exactly the freshly inserted pending row. -/
theorem callDb_insert {uid oid : String} {a : CallArgs} {db : DB}
    (hf : a.env.findError = none) (hw : a.env.writeError = none)
    (h0 : pairRows db uid oid = []) :
    callDb uid oid a db
      = db ++ [insertedRow a.env (toPendingInput (inputOfCall uid oid a))] := by
  have hfind : findLatestNonPaid db uid oid = none := findLatest_of_pairRows_nil h0
  simp only [callDb, createOrReuseActiveTransaction, inputOfCall, hf, hfind,
    createPendingTransaction, toPendingInput, hw]

/-- State after an insert-path call: exactly one pending row for the
pair, table one row longer. -/
theorem callDb_insert_state {uid oid : String} {a : CallArgs} {db : DB}
    (hf : a.env.findError = none) (hw : a.env.writeError = none)
    (h0 : pairRows db uid oid = []) :
    ∃ r, pairRows (callDb uid oid a db) uid oid = [r]
      ∧ r.status = TxStatus.pending
      ∧ (callDb uid oid a db).length = db.length + 1 := by
  rw [callDb_insert hf hw h0]
  refine ⟨insertedRow a.env (toPendingInput (inputOfCall uid oid a)), ?_, rfl, ?_⟩
  · rw [pairRows, List.filter_append]
    rw [pairRows] at h0
    rw [h0]
    simp [List.filter_cons, pairMatch, insertedRow, toPendingInput, inputOfCall]
  · simp

/-- With exactly one non-paid row for the pair, a call takes the reuse
path: the table is updated in place at that row's id. -/
theorem callDb_reuse {uid oid : String} {a : CallArgs} {db : DB} {r : Transaction}
    (hf : a.env.findError = none) (hw : a.env.writeError = none)
    (h1 : pairRows db uid oid = [r]) (hr : r.status.isPaid = false) :
    callDb uid oid a db
      = updateById db r.id
          (applyReusePatch (mkReusePatch (inputOfCall uid oid a) r) a.env.now) := by
  have hfind : findLatestNonPaid db uid oid = some r := findLatest_of_pairRows_single h1 hr
  simp only [callDb, createOrReuseActiveTransaction, inputOfCall, hf, hfind, hw]

/-- State after a reuse-path call: still exactly one row for the pair,
back to `pending`, table length unchanged. -/
theorem callDb_reuse_state {uid oid : String} {a : CallArgs} {db : DB} {r : Transaction}
    (hf : a.env.findError = none) (hw : a.env.writeError = none)
    (h1 : pairRows db uid oid = [r]) (hp : r.status = TxStatus.pending) :
    ∃ r2, pairRows (callDb uid oid a db) uid oid = [r2]
      ∧ r2.status = TxStatus.pending
      ∧ (callDb uid oid a db).length = db.length := by
  have hr : r.status.isPaid = false := by rw [hp]; rfl
  rw [callDb_reuse hf hw h1 hr]
  rw [pairRows_updateById db uid oid r.id
    (applyReusePatch (mkReusePatch (inputOfCall uid oid a) r) a.env.now)
    (fun t => pairMatch_applyReusePatch uid oid _ _ t)]
  rw [h1]
  refine ⟨applyReusePatch (mkReusePatch (inputOfCall uid oid a) r) a.env.now r, ?_, rfl, ?_⟩
  · simp
  · simp [updateById]

/-- Once the pair has its single pending row, every further error-free
call preserves that state and the table length. -/
theorem applyCalls_preserves (uid oid : String) :
    ∀ (calls : List CallArgs) (d : DB) (n : Nat),
      (∀ a ∈ calls, a.env.findError = none ∧ a.env.writeError = none) →
      (∃ r, pairRows d uid oid = [r] ∧ r.status = TxStatus.pending ∧ d.length = n) →
      ∃ r, pairRows (applyCalls uid oid d calls) uid oid = [r]
        ∧ r.status = TxStatus.pending ∧ (applyCalls uid oid d calls).length = n := by
  intro calls
  induction calls with
  | nil =>
    intro d n _ h
    simpa [applyCalls] using h
  | cons a rest ih =>
    intro d n hok h
    obtain ⟨r, h1, hp, hl⟩ := h
    obtain ⟨hf, hw⟩ := hok a (List.mem_cons_self a rest)
    obtain ⟨r2, h1', hp', hl'⟩ := callDb_reuse_state hf hw h1 hp
    have hstep : applyCalls uid oid d (a :: rest)
        = applyCalls uid oid (callDb uid oid a d) rest := rfl
    rw [hstep]
    exact ih (callDb uid oid a d) n (fun b hb => hok b (List.mem_cons_of_mem a hb))
      ⟨r2, h1', hp', hl'.trans hl⟩

/-- C1: starting from a table with no row for the pair, after each call
of a sequence of error-free `createOrReuseActiveTransaction` calls for
that fixed pair (that is, after every nonempty prefix of the sequence)
the table holds exactly one row for the pair, with status `pending`;
the table length stays at one more than initially, so the first call is
the only insert and every later call updates the existing row in place
rather than inserting a duplicate. -/
theorem createOrReuse_single_active_invariant
    (uid oid : String) (db : DB) (calls : List CallArgs)
    (h0 : pairRows db uid oid = [])
    (hok : ∀ a ∈ calls, a.env.findError = none ∧ a.env.writeError = none) :
    ∀ pre suf, calls = pre ++ suf → pre ≠ [] →
      ∃ r, pairRows (applyCalls uid oid db pre) uid oid = [r]
        ∧ r.status = TxStatus.pending
        ∧ (applyCalls uid oid db pre).length = db.length + 1 := by
  intro pre suf hsplit hne
  have hokpre : ∀ a ∈ pre, a.env.findError = none ∧ a.env.writeError = none := by
    intro a ha
    exact hok a (by rw [hsplit]; exact List.mem_append_left suf ha)
  cases pre with
  | nil => exact absurd rfl hne
  | cons a rest =>
    obtain ⟨hf, hw⟩ := hokpre a (List.mem_cons_self a rest)
    obtain ⟨r1, h1, hp1, hl1⟩ := callDb_insert_state hf hw h0
    have hstep : applyCalls uid oid db (a :: rest)
        = applyCalls uid oid (callDb uid oid a db) rest := rfl
    rw [hstep]
    exact applyCalls_preserves uid oid rest (callDb uid oid a db) (db.length + 1)
      (fun b hb => hokpre b (List.mem_cons_of_mem a hb)) ⟨r1, h1, hp1, hl1⟩

/-- C1 witness first call. -/
def cA : CallArgs := { env := { now := "2026-04-01T00:00:00Z", freshId := "w1" } }

/-- C1 witness second call: same pair, new amount. -/
def cB : CallArgs :=
  { env := { now := "2026-04-02T00:00:00Z", freshId := "w2" }, amount := some 9 }

/-- C1 witness: two consecutive calls for `(u9, o9)` on an initially
empty table leave exactly one pending row. -/
theorem createOrReuse_single_active_invariant_witness :
    ∃ r, pairRows (applyCalls "u9" "o9" [] [cA, cB]) "u9" "o9" = [r]
      ∧ r.status = TxStatus.pending
      ∧ (applyCalls "u9" "o9" [] [cA, cB]).length = 1 := by
  have h := createOrReuse_single_active_invariant "u9" "o9" [] [cA, cB] rfl
    (by
      intro a ha
      rcases List.mem_cons.mp ha with h1 | h1
      · rw [h1]; exact ⟨rfl, rfl⟩
      · rcases List.mem_cons.mp h1 with h2 | h2
        · rw [h2]; exact ⟨rfl, rfl⟩
        · cases h2)
    [cA, cB] [] rfl (by simp)
  simpa using h

end RNEBA
